import Mathlib

/-!
# Verification of the DevForge command dispatcher (src/extension.ts)

A shallow embedding of the DevForge VS Code extension's core logic:
the command router (`handleUserCommand`), the five pipelines registered as
commands (`devforge.runEnv`, `devforge.runSummary`, `devforge.runTests`,
`devforge.runFlow`, `devforge.runLogs`), and the helpers they use.

External collaborators (the filesystem, the axios HTTP client, subprocess
execution, the active editor) are modelled as explicit environment records:
each pipeline is a pure function from an environment describing the outcomes
of its external calls to a result record listing its observable effects
(webview DisplayMessages posted, remote-call payloads, filesystem writes,
spawned commands, and any exception that escapes the handler uncaught).

Modelling conventions, noted where they matter:
* JavaScript strings are Lean `String`s; `x || y` on strings is `jsOr`
  (empty string is the only falsy string that occurs).
* `undefined` string-typed values are `Option String`; interpolating
  `undefined` into a template literal yields the text "undefined" (`jsUndef`).
* Node's `path.join` is modelled by `pathJoin` for already-normalized
  segments without `.`/`..` components or trailing slashes: it concatenates
  with a `/` separator and collapses the separator seam; in particular a
  second *absolute* segment is appended verbatim after its leading slashes
  are dropped, exactly as Node's join-then-normalize does.
* `path.basename` / `path.relative` are `basename` / `pathRelative`, again
  for normalized inputs with the relative path below the root.
* JS `String.prototype.includes`, `.trim`, `.toLowerCase`,
  `.split(/\s+/)` are `strContains`, `listTrim`, `strLower`, `jsTokens`
  (ASCII case folding; Unicode-exotic whitespace aside, these agree).
-/

/-- Bool test: `n` is a leading run of `h` (JS/au fond `startsWith`). -/
def listPre (n h : List Char) : Bool :=
  match n, h with
  | [], _ => true
  | _ :: _, [] => false
  | a :: as, b :: bs => a == b && listPre as bs

/-- Bool test: `n` occurs as a contiguous run somewhere in `h`
    (the semantics of JS `h.includes(n)`). -/
def listSub (n : List Char) : List Char → Bool
  | [] => n.isEmpty
  | c :: t => listPre n (c :: t) || listSub n t

/-- Number of start positions in `h` at which `n` occurs. -/
def countOcc (n : List Char) : List Char → Nat
  | [] => 0
  | c :: t => (if listPre n (c :: t) then 1 else 0) + countOcc n t

/-- JS `hay.includes(needle)`. -/
def strContains (hay needle : String) : Bool :=
  listSub needle.data hay.data

/-- JS `a || b` for strings: the empty string is falsy. -/
def jsOr (a b : String) : String := if a = "" then b else a

/-- JS `x || d` where `x : string | undefined`. -/
def jsOrOpt (s : Option String) (d : String) : String :=
  match s with
  | none => d
  | some t => jsOr t d

/-- Interpolating a possibly-`undefined` string into a template literal. -/
def jsUndef (s : Option String) : String :=
  match s with
  | none => "undefined"
  | some t => t

/-- ASCII lower-casing, as JS `toLowerCase` acts on ASCII command verbs. -/
def strLower (s : String) : String := String.mk (s.data.map Char.toLower)

/-- Node `path.join(a, b)` for normalized segments (see header comment). -/
def pathJoin (a b : String) : String :=
  if a = "" then (if b = "" then "." else b)
  else if b = "" then a
  else a ++ "/" ++ String.mk (b.data.dropWhile (fun c => c = '/'))

/-- Node `path.basename`: the part after the last `/` (no trailing slash). -/
def basename (p : String) : String :=
  String.mk ((p.data.reverse.takeWhile (fun c => c != '/')).reverse)

/-- Node `path.relative(root, p)` for `p` lying below `root`. -/
def pathRelative (root p : String) : String :=
  if listPre (root ++ "/").data p.data then String.mk (p.data.drop (root.length + 1))
  else p

/-- JS `text.trim()` at the character-list level. -/
def listTrim (l : List Char) : List Char :=
  ((l.dropWhile Char.isWhitespace).reverse.dropWhile Char.isWhitespace).reverse

/-- Split on single whitespace characters (empty runs retained). -/
def wsSplit (l : List Char) : List (List Char) :=
  l.foldr
    (fun c acc =>
      if c.isWhitespace then [] :: acc
      else
        match acc with
        | [] => [[c]]
        | t :: ts => (c :: t) :: ts)
    []

/-- JS `text.trim().split(/\s+/)`: on the empty string JS yields `[""]`;
    otherwise the maximal non-whitespace runs of the trimmed text. -/
def jsTokens (text : String) : List (List Char) :=
  let t := listTrim text.data
  if t = [] then [[]] else (wsSplit t).filter (fun x => x ≠ [])

/-- `parts.slice(1).join(' ')`. -/
def joinArgs : List String → String
  | [] => ""
  | [a] => a
  | a :: rest => a ++ " " ++ joinArgs rest

/-- Concatenation of a list of strings (no separator). -/
def strJoin : List String → String
  | [] => ""
  | s :: t => s ++ strJoin t

/-! ## Configuration constants (extension.ts lines 7-26) -/

/-- The single n8n webhook endpoint all requests are posted to. -/
def N8N_WEBHOOK_URL : String :=
  "https://clownsbeta.app.n8n.cloud/webhook/devforge-analysis"

/-- The flow-analysis file allow-list patterns. -/
def FLOW_FILE_PATTERNS : List String :=
  ["**/package.json", "**/*.html", "**/index.js", "**/index.ts",
   "**/index.jsx", "**/index.tsx", "**/server.js", "**/server.ts",
   "**/src/**/*.js", "**/src/**/*.ts", "**/src/**/*.jsx", "**/src/**/*.tsx"]

/-- Max files read for project flow analysis. -/
def MAX_CONTEXT_FILES : Nat := 8

/-! ## Test-filename computation (extension.ts line 141)

`path.basename(targetPath).replace(/(\.js|\.ts|\.jsx|\.tsx)/, '.test$&')`:
a non-global regex replace rewrites only the LEFTMOST match.  Because
`\.js` is an alternative tried before `\.jsx` (and is a prefix of it), and
likewise `\.ts` before `\.tsx`, the regex matches exactly the leftmost
occurrence of the three-character run `.js` or `.ts`, and the matched text
is that three-character run.  The replacement `'.test$&'` inserts `.test`
in front of the matched text. -/

/-- The regex alternatives that can actually fire, tried at one position:
    `.js` first, then `.ts` (`.jsx`/`.tsx` are shadowed by their prefixes). -/
def jsExtAt (l : List Char) : Option (List Char) :=
  if listPre ['.', 'j', 's'] l then some ['.', 'j', 's']
  else if listPre ['.', 't', 's'] l then some ['.', 't', 's']
  else none

/-- `replace(/(\.js|\.ts|\.jsx|\.tsx)/, '.test$&')` on the char list. -/
def insertTestMarker : List Char → List Char
  | [] => []
  | c :: t =>
    match jsExtAt (c :: t) with
    | some e => ['.', 't', 'e', 's', 't'] ++ e ++ (c :: t).drop 3
    | none => c :: insertTestMarker t

/-- The computed destination test filename for a source basename. -/
def insertTestStr (s : String) : String := String.mk (insertTestMarker s.data)

/-- `true` iff `.js` or `.ts` occurs somewhere in `l` (i.e. the regex of
    line 141 has a match). -/
def hasExtOcc : List Char → Bool
  | [] => false
  | c :: t => (jsExtAt (c :: t)).isSome || hasExtOcc t

/-! ## DisplayMessage texts

Every pipeline communicates with the UI solely through
`chatProvider.postMessageToWebview({command:'addMessage', text})`; a
DisplayMessage is therefore modelled as its `text` string.  The
constructors below are verbatim from extension.ts. -/

/-- runEnv acknowledgement (line 54). -/
def envAckMsg (envName : String) : String :=
  "Environment setup triggered for **" ++ envName ++
  "** in the integrated terminal. Check the TERMINAL tab."

/-- runSummary file-not-found (line 78). -/
def summaryNotFoundMsg (arg : String) : String :=
  "[DevForge] ERROR: File not found or invalid path provided: " ++
  jsOr arg "No active file" ++ "."

/-- runSummary success (line 99). -/
def summaryOkMsg (base summary : String) : String :=
  "**Agent Analysis for " ++ base ++ ":**\n\n" ++ summary

/-- runSummary fallback when the agent returns no summary text (line 95). -/
def summaryFallback : String :=
  "Analysis failed: Agent returned no specific summary text."

/-- runSummary catch-branch message (line 105). -/
def summaryErrMsg (err : String) : String :=
  "[DevForge] Agent integration failed (Check N8N/API). Error: " ++ err

/-- runTests file-not-found (line 120). -/
def testsNotFoundMsg (arg : String) : String :=
  "[DevForge] ERROR: File not found: " ++ jsOr arg "No active file" ++ "."

/-- runTests generation-failure message (line 136). -/
def genFailMsg (s : Option String) : String :=
  "**AI Test Generation Failed.** Output:\n\n" ++ jsUndef s

/-- runTests save-failure message (line 150). -/
def saveErrMsg : String :=
  "[ERROR] Could not save test file. Check folder permissions."

/-- runTests saved-and-executing progress message (line 156). -/
def savedMsg (testFilename : String) : String :=
  "Test file saved to **tests/" ++ testFilename ++
  "**. Now executing tests... (Check Terminal for full log)"

/-- runTests execution-results message (line 168). -/
def testResultsMsg (isSuccess : Bool) (resultOutput : String) : String :=
  "**Test Execution Results:** " ++ (if isSuccess then "✅ PASSED" else "❌ FAILED") ++
  "\n\n```\n" ++ resultOutput ++ "\n```"

/-- runFlow no-workspace message (line 179). -/
def flowNoRootMsg : String :=
  "[ERROR] Please open a project folder to run flow analysis."

/-- runFlow zero-matches message (line 193). -/
def flowNoFilesMsg : String :=
  "[DevForge] Could not find relevant source files in the project."

/-- runFlow per-file context-blob section (line 203). -/
def flowSeg (relativePath content : String) : String :=
  "\n\n### FILE: " ++ relativePath ++ " ###\n\n```\n" ++ content ++ "\n```"

/-- runFlow fallback when the agent returns no summary (line 215). -/
def flowFallback : String :=
  "Flow analysis failed. Check N8N workflow for response."

/-- runFlow success message (line 220). -/
def flowOkMsg (rootBase summary : String) : String :=
  "**Project Flow Analysis for " ++ rootBase ++ ":**\n\n" ++ summary

/-- runFlow catch-branch message (line 226). -/
def flowErrMsg (err : String) : String :=
  "[ERROR] Flow analysis failed during execution: " ++ err

/-- runLogs no-workspace message (line 240). -/
def logsNoRootMsg : String :=
  "[ERROR] Please open a project folder to run log analysis."

/-- runLogs failure message (line 254). -/
def logsErrMsg (fileName err : String) : String :=
  "[ERROR] Could not read log file '" ++ fileName ++
  "'. Check file existence in project root. Shell Error: " ++ err

/-- runLogs success message (line 260). -/
def logsOkMsg (fileName stdout : String) : String :=
  "**Log Snapshot for " ++ fileName ++ " (Last 10 lines):**\n```\n" ++ stdout ++ "\n```"

/-- The unrecognized-command message of the router's default branch (line 354). -/
def unrecognizedMsg (command : String) : String :=
  "[DevForge] Unrecognized command: " ++ command ++
  ". Type **/help** for a list of commands."

/-! ## Pipeline environments and observable results

Each environment record carries the externally supplied inputs of one
command invocation: the workspace root, the argument string the router
passed, the active-editor state, and the outcomes the external world hands
back for each filesystem / network / subprocess call the pipeline makes.
An `Except String` outcome's `error` constructor carries the message of the
thrown error / rejected promise. -/

/-- Outcome of one `exec` callback: `error?.message`, stdout, stderr. -/
structure ExecOutcome where
  err : Option String
  stdout : String
  stderr : String

/-- Environment of a `devforge.runSummary` invocation (lines 61-109). -/
structure SummaryEnv where
  root : Option String
  arg : String
  activeFile : Option String
  fsExists : String → Bool
  readResult : Except String String
  postSummary : Except String (Option String)

/-- Observables of a `devforge.runSummary` invocation. -/
structure SummaryResult where
  messages : List String
  remoteCalls : Nat
  uncaught : Option String

/-- Environment of a `devforge.runTests` invocation (lines 112-172). -/
structure TestsEnv where
  root : Option String
  arg : String
  activeFileName : Option String
  fsExists : String → Bool
  readResult : Except String String
  postSummary : Except String (Option String)
  mkdirResult : Except String Unit
  writeResult : Except String Unit
  exec : ExecOutcome

/-- Observables of a `devforge.runTests` invocation.  `writes`/`mkdirs`
    record attempted filesystem calls (path, content); `execs` records
    spawned commands with their `cwd` option. -/
structure TestsResult where
  messages : List String
  remoteCalls : Nat
  writes : List (String × String)
  mkdirs : List String
  execs : List (String × Option String)
  uncaught : Option String

/-- The body posted to the webhook by `devforge.runFlow` (lines 209-213). -/
structure FlowPayload where
  project_context : String
  task : String
  root_path : String

/-- Environment of a `devforge.runFlow` invocation (lines 175-230):
    `found` is the `findFiles` result in discovery order (the cap of
    `MAX_CONTEXT_FILES` is applied by the pipeline model, mirroring the
    `maxResults` argument of line 190). -/
structure FlowEnv where
  root : Option String
  found : List String
  read : String → Except String String
  postSummary : Except String (Option String)

/-- Observables of a `devforge.runFlow` invocation. -/
structure FlowResult where
  messages : List String
  payloads : List FlowPayload
  uncaught : Option String

/-- Environment of a `devforge.runLogs` invocation (lines 234-263). -/
structure LogsEnv where
  root : Option String
  fileName : String
  exec : ExecOutcome

/-- Observables of a `devforge.runLogs` invocation. -/
structure LogsResult where
  messages : List String
  execs : List (String × String)
  uncaught : Option String

/-- Observables of a `devforge.runEnv` invocation. -/
structure EnvResult where
  messages : List String
  terminalCmds : List String
  uncaught : Option String

/-! ## The pipelines -/

/-- `devforge.runEnv` (lines 45-58): fire-and-forget terminal command plus
    one acknowledgement DisplayMessage. -/
def runEnv (envName : String) : EnvResult :=
  { messages := [envAckMsg envName]
    terminalCmds :=
      ["docker-compose -f docker-compose." ++ envName ++ ".yml up -d --build"]
    uncaught := none }

/-- runSummary's target-path resolution (lines 63-73): an explicit argument
    is joined to the workspace root (and is dropped when there is no root);
    otherwise the active editor's file path is used as-is. -/
def summaryTarget (e : SummaryEnv) : Option String :=
  if e.arg ≠ "" then
    match e.root with
    | some r => some (pathJoin r e.arg)
    | none => none
  else e.activeFile

/-- `devforge.runSummary` (lines 61-109). -/
def runSummary (e : SummaryEnv) : SummaryResult :=
  match summaryTarget e with
  | none => ⟨[summaryNotFoundMsg e.arg], 0, none⟩
  | some t =>
    if e.fsExists t then
      match e.readResult with
      | .error err => ⟨[summaryErrMsg err], 0, none⟩
      | .ok _ =>
        match e.postSummary with
        | .error err => ⟨[summaryErrMsg err], 1, none⟩
        | .ok s => ⟨[summaryOkMsg (basename t) (jsOrOpt s summaryFallback)], 1, none⟩
    else ⟨[summaryNotFoundMsg e.arg], 0, none⟩

/-- runTests' target-path computation (line 117):
    `path.join(workspaceRoot || '', filePath || activeFileName || '')` —
    note the active file's (absolute) name is also joined to the root. -/
def testsTarget (e : TestsEnv) : String :=
  pathJoin (e.root.getD "") (jsOr e.arg (e.activeFileName.getD ""))

/-- The generation-failure test of line 135:
    `!generatedTest || generatedTest.includes('failed')`. -/
def genRejected (s : Option String) : Bool :=
  match s with
  | none => true
  | some t => t == "" || strContains t "failed"

/-- Persist-and-execute tail of runTests (lines 148-171), reached with the
    `tests/` directory present (or just created, recorded in `mk`). -/
def testsPersistExec (e : TestsEnv) (g fn fp : String) (mk : List String) :
    TestsResult :=
  match e.writeResult with
  | .error _ => ⟨[saveErrMsg], 1, [(fp, g)], mk, [], none⟩
  | .ok _ =>
    ⟨[savedMsg fn,
      testResultsMsg
        (strContains (strLower (e.exec.stdout ++ e.exec.stderr)) "pass" &&
          e.exec.err.isNone)
        (e.exec.stdout ++ e.exec.stderr)],
      1, [(fp, g)], mk, [("npm test", e.root)], none⟩

/-- `devforge.runTests` (lines 112-172).  The file read of line 126 and the
    webhook post of line 128 are NOT inside any try/catch: their failures
    escape the handler as `uncaught` with no DisplayMessage emitted.  Only
    the mkdir/write of lines 144-152 are guarded. -/
def runTests (e : TestsEnv) : TestsResult :=
  let target := testsTarget e
  if target = "" || !(e.fsExists target) then
    ⟨[testsNotFoundMsg e.arg], 0, [], [], [], none⟩
  else
    match e.readResult with
    | .error err => ⟨[], 0, [], [], [], some err⟩
    | .ok _ =>
      match e.postSummary with
      | .error err => ⟨[], 1, [], [], [], some err⟩
      | .ok s =>
        if genRejected s then ⟨[genFailMsg s], 1, [], [], [], none⟩
        else
          let g := s.getD ""
          let fn := insertTestStr (basename target)
          let fp := pathJoin (pathJoin (e.root.getD "") "tests") fn
          match e.root with
          | some r =>
            if e.fsExists (pathJoin r "tests") then testsPersistExec e g fn fp []
            else
              match e.mkdirResult with
              | .error _ => ⟨[saveErrMsg], 1, [], [pathJoin r "tests"], [], none⟩
              | .ok _ => testsPersistExec e g fn fp [pathJoin r "tests"]
          | none => testsPersistExec e g fn fp []

/-- The for-loop of lines 198-204 building `contextString`, aborting on the
    first unreadable file (whose thrown error the outer catch receives). -/
def buildFlowContextAux (read : String → Except String String) (r : String) :
    String → List String → Except String String
  | acc, [] => .ok acc
  | acc, p :: ps =>
    match read p with
    | .error e => .error e
    | .ok c => buildFlowContextAux read r (acc ++ flowSeg (pathRelative r p) c) ps

/-- `devforge.runFlow` (lines 175-230). -/
def runFlow (e : FlowEnv) : FlowResult :=
  match e.root with
  | none => ⟨[flowNoRootMsg], [], none⟩
  | some r =>
    let files := e.found.take MAX_CONTEXT_FILES
    if files.length = 0 then ⟨[flowNoFilesMsg], [], none⟩
    else
      match buildFlowContextAux e.read r "" files with
      | .error err => ⟨[flowErrMsg err], [], none⟩
      | .ok ctx =>
        match e.postSummary with
        | .error err => ⟨[flowErrMsg err], [⟨ctx, "flow_analysis", basename r⟩], none⟩
        | .ok s =>
          ⟨[flowOkMsg (basename r) (jsOrOpt s flowFallback)],
            [⟨ctx, "flow_analysis", basename r⟩], none⟩

/-- `devforge.runLogs` (lines 234-263). -/
def runLogs (e : LogsEnv) : LogsResult :=
  match e.root with
  | none => ⟨[logsNoRootMsg], [], none⟩
  | some r =>
    let cmd := "tail -n 10 " ++ e.fileName
    if e.exec.err.isSome || e.exec.stderr != "" then
      ⟨[logsErrMsg e.fileName (jsOr (e.exec.err.getD "") e.exec.stderr)],
        [(cmd, r)], none⟩
    else ⟨[logsOkMsg e.fileName e.exec.stdout], [(cmd, r)], none⟩

/-! ## The command router (handleUserCommand, lines 306-357) -/

/-- A router effect: a DisplayMessage posted to the webview, or a
    `vscode.commands.executeCommand` dispatch with its argument. -/
inductive RouterAction where
  | display (text : String)
  | dispatch (cmd : String) (arg : String)
deriving DecidableEq, Repr

/-- The lower-cased first token of the raw line (`parts[0].toLowerCase()`).
    (`headD` is safe: `jsTokens` never returns `[]`.) -/
def routerVerb (text : String) : String :=
  String.mk (((jsTokens text).headD []).map Char.toLower)

/-- The remaining tokens rejoined with single spaces
    (`parts.slice(1).join(' ')`). -/
def routerArg (text : String) : String :=
  joinArgs (((jsTokens text).drop 1).map String.mk)

/-- The static /help DisplayMessage (lines 312-322). -/
def helpText : String :=
  "\n**DevForge Agent Commands:**\n| Command | Action | Example |\n| :--- | :--- | :--- |\n| **/flow** | **[NEW]** Analyzes the entire project structure and data flow. | `/flow` |\n| **/summary [file]** | Runs AI static analysis (flaws, suggestions). | `/summary index.js` |\n| **/test [file]** | **Generates and executes** a unit test suite. | `/test component.js` |\n| **/logs [file]** | Fetches the last 10 lines of the log file from the project root. | `/logs app.log` |\n| **/env [version]** | Executes Docker Compose for the environment version (e.g., `node-18`). | `/env node-18` |\n| **/help** | Displays this command list. | `/help` |\n"

/-- The verbs the switch of lines 324-356 recognizes (`showcurrentlogs` is
    the internal shortcut-button alias). -/
def recognizedVerbs : List String :=
  ["showcurrentlogs", "/flow", "/test", "/help", "/summary", "/analyze",
   "/logs", "/env", "/environment"]

/-- `handleUserCommand` (lines 306-357): parse the raw line into verb and
    argument and dispatch per the switch. -/
def handleUserCommand (text : String) : List RouterAction :=
  let command := routerVerb text
  let argument := routerArg text
  if command = "showcurrentlogs" then
    [RouterAction.dispatch "devforge.runLogs" "server.log"]
  else if command = "/flow" then [RouterAction.dispatch "devforge.runFlow" ""]
  else if command = "/test" then [RouterAction.dispatch "devforge.runTests" argument]
  else if command = "/help" then [RouterAction.display helpText]
  else if command = "/summary" ∨ command = "/analyze" then
    [RouterAction.dispatch "devforge.runSummary" argument]
  else if command = "/logs" then
    [RouterAction.dispatch "devforge.runLogs" (jsOr argument "server.log")]
  else if command = "/env" ∨ command = "/environment" then
    [RouterAction.dispatch "devforge.runEnv" (jsOr argument "default")]
  else [RouterAction.display (unrecognizedMsg command)]

/-- The file-delimiter header marker of the flow-analysis context blob:
    each `flowSeg` opens with `\n\n### FILE: <relativePath> ###`. -/
def fileMarker : String := "### FILE: "

/-! ## Concrete invocation environments used in closed theorems -/

/-- A generate-and-verify invocation on an existing `src/app.js` whose
    webhook call is rejected with a network error. -/
def teRemoteFail : TestsEnv :=
  { root := some "/w", arg := "src/app.js", activeFileName := none
    fsExists := fun p => p == "/w/src/app.js" || p == "/w/tests"
    readResult := .ok "let x = 1"
    postSummary := .error "Network Error"
    mkdirResult := .ok (), writeResult := .ok ()
    exec := ⟨none, "2 passing", ""⟩ }

/-- The same invocation with a successful generation response. -/
def teOk : TestsEnv := { teRemoteFail with postSummary := .ok (some "describe(add)") }

/-- The same invocation where the agent's text reports a failure. -/
def teGenFail : TestsEnv :=
  { teRemoteFail with postSummary := .ok (some "generation failed") }

/-- A generate-and-verify invocation on `src/a.ts.js` (a basename whose
    first `.js`/`.ts` occurrence is not its final extension). -/
def teFirstOcc : TestsEnv :=
  { teRemoteFail with
    arg := "src/a.ts.js"
    fsExists := fun p => p == "/w/src/a.ts.js" || p == "/w/tests"
    postSummary := .ok (some "describe(add)") }

/-- A generate-and-verify invocation on `src/foo.js`. -/
def teFoo : TestsEnv :=
  { teRemoteFail with
    arg := "src/foo.js"
    fsExists := fun p => p == "/w/src/foo.js" || p == "/w/tests"
    postSummary := .ok (some "describe(add)") }

/-- A generate-and-verify invocation on `src/README.md` (no script
    extension anywhere in the basename). -/
def teNoExt : TestsEnv :=
  { teRemoteFail with
    arg := "src/README.md"
    fsExists := fun p => p == "/w/src/README.md" || p == "/w/tests"
    postSummary := .ok (some "describe(add)") }

/-- A generate-and-verify invocation with no argument, a workspace root
    `/w`, and an active editor on the existing file `/home/u/app.js`. -/
def teActive : TestsEnv :=
  { root := some "/w", arg := "", activeFileName := some "/home/u/app.js"
    fsExists := fun p => p == "/home/u/app.js"
    readResult := .ok "x", postSummary := .ok (some "y")
    mkdirResult := .ok (), writeResult := .ok ()
    exec := ⟨none, "", ""⟩ }

/-- A summarize invocation on a missing explicit path. -/
def seW : SummaryEnv :=
  { root := some "/w", arg := "missing.js", activeFile := none
    fsExists := fun _ => false
    readResult := .ok "x", postSummary := .ok (some "s") }

/-- A flow-analysis invocation discovering two readable files. -/
def feW : FlowEnv :=
  { root := some "/w", found := ["/w/package.json", "/w/src/index.js"]
    read := fun p => .ok (if p == "/w/package.json" then "pkg" else "code()")
    postSummary := .ok (some "sum") }

/-- The file contents `feW.read` serves, as a total lookup. -/
def feWContent (p : String) : String :=
  if p == "/w/package.json" then "pkg" else "code()"

/-- A flow-analysis invocation discovering zero files. -/
def feEmpty : FlowEnv := { feW with found := [] }

/-- A log-tail invocation whose `tail` run succeeds. -/
def leW : LogsEnv :=
  { root := some "/w", fileName := "server.log"
    exec := ⟨none, "line1\nline2", ""⟩ }

/-! ## Lemmas about the string primitives -/

theorem listPre_self_append (n b : List Char) : listPre n (n ++ b) = true := by
  induction n with
  | nil => simp [listPre]
  | cons a as ih => simp [listPre, ih]

theorem listPre_head_eq {a : Char} {as : List Char} {h : List Char}
    (hp : listPre (a :: as) h = true) : ∃ t, h = a :: t := by
  cases h with
  | nil => simp [listPre] at hp
  | cons b bs =>
    simp only [listPre, Bool.and_eq_true, beq_iff_eq] at hp
    exact ⟨bs, by rw [hp.1]⟩

theorem listSub_of_listPre {n h : List Char} (hp : listPre n h = true) :
    listSub n h = true := by
  cases h with
  | nil =>
    cases n with
    | nil => simp [listSub]
    | cons a as => simp [listPre] at hp
  | cons c t => simp [listSub, hp]

theorem listSub_append_right (n : List Char) :
    ∀ a b : List Char, listSub n b = true → listSub n (a ++ b) = true := by
  intro a
  induction a with
  | nil => simp
  | cons c t ih =>
    intro b hb
    simp only [List.cons_append, listSub, Bool.or_eq_true]
    exact Or.inr (ih b hb)

theorem listSub_mid (n a b : List Char) : listSub n (a ++ (n ++ b)) = true :=
  listSub_append_right n a (n ++ b) (listSub_of_listPre (listPre_self_append n b))

theorem listPre_snoc {c : Char} :
    ∀ (m a : List Char), c ∉ m → listPre m (a ++ [c]) = listPre m a := by
  intro m
  induction m with
  | nil => intro a _; simp [listPre]
  | cons d m' ih =>
    intro a hc
    have hdc : (d == c) = false := by
      refine beq_eq_false_iff_ne.mpr fun h => hc ?_
      simp [h]
    have hcm : c ∉ m' := fun h => hc (List.mem_cons_of_mem _ h)
    cases a with
    | nil => simp [listPre, hdc]
    | cons e a' =>
      simp only [List.cons_append, listPre, List.append_eq]
      rw [ih a' hcm]

theorem listPre_snoc_append {c : Char} :
    ∀ (m a b : List Char), c ∉ m →
      listPre m ((a ++ [c]) ++ b) = listPre m (a ++ [c]) := by
  intro m
  induction m with
  | nil => intro a b _; simp [listPre]
  | cons d m' ih =>
    intro a b hc
    have hdc : (d == c) = false := by
      refine beq_eq_false_iff_ne.mpr fun h => hc ?_
      simp [h]
    have hcm : c ∉ m' := fun h => hc (List.mem_cons_of_mem _ h)
    cases a with
    | nil => simp [listPre, hdc]
    | cons e a' =>
      simp only [List.cons_append, listPre, List.append_eq]
      rw [ih a' b hcm]

theorem countOcc_split {m : List Char} {c : Char} (hm : m ≠ []) (hc : c ∉ m) :
    ∀ a b, countOcc m ((a ++ [c]) ++ b) = countOcc m (a ++ [c]) + countOcc m b := by
  intro a
  induction a with
  | nil =>
    intro b
    obtain ⟨d, m', rfl⟩ : ∃ d m', m = d :: m' := by
      cases m with
      | nil => exact absurd rfl hm
      | cons d m' => exact ⟨d, m', rfl⟩
    have hdc : (d == c) = false := by
      refine beq_eq_false_iff_ne.mpr fun h => hc ?_
      simp [h]
    simp [countOcc, listPre, hdc]
  | cons e a' ih =>
    intro b
    have h0 : listPre m (((e :: a') ++ [c]) ++ b) = listPre m ((e :: a') ++ [c]) :=
      listPre_snoc_append m (e :: a') b hc
    simp only [List.cons_append, List.append_eq] at h0 ⊢
    simp only [countOcc]
    rw [h0, ih b]
    omega

theorem countOcc_of_not_listSub {m : List Char} :
    ∀ h, listSub m h = false → countOcc m h = 0 := by
  intro h
  induction h with
  | nil => intro _; simp [countOcc]
  | cons c t ih =>
    intro hs
    simp only [listSub, Bool.or_eq_false_iff] at hs
    simp [countOcc, hs.1, ih hs.2]

theorem listPre_trans_length :
    ∀ (d m X : List Char), d.length ≤ m.length →
      listPre m (d ++ X) = true → listPre d m = true := by
  intro d
  induction d with
  | nil => intro m X _ _; simp [listPre]
  | cons a d' ih =>
    intro m X hlen hp
    cases m with
    | nil => simp at hlen
    | cons b m' =>
      simp only [List.cons_append, listPre, Bool.and_eq_true, beq_iff_eq] at hp ⊢
      exact ⟨hp.1.symm, ih m' X (by simpa using hlen) hp.2⟩

theorem countOcc_drop_append {m : List Char}
    (hb : ∀ j, j < m.length → 0 < j → listPre (m.drop j) m = false) (X : List Char) :
    ∀ (d : List Char) (j : Nat), 0 < j → d = m.drop j →
      countOcc m (d ++ X) = countOcc m X := by
  intro d
  induction d with
  | nil => intro j _ _; simp
  | cons c d2 ih =>
    intro j hj hd
    have hjlt : j < m.length := by
      by_contra hge
      rw [List.drop_eq_nil_of_le (by omega)] at hd
      exact List.cons_ne_nil c d2 hd
    have hd2 : d2 = m.drop (j + 1) := by
      have h1 : m.drop (j + 1) = (m.drop j).drop 1 := by
        rw [← List.drop_drop]
      rw [h1, ← hd, List.drop_one, List.tail_cons]
    have hcond : listPre m (c :: (d2 ++ X)) = false := by
      rw [show c :: (d2 ++ X) = (c :: d2) ++ X from rfl]
      cases hh : listPre m ((c :: d2) ++ X) with
      | false => rfl
      | true =>
        have hlen : (c :: d2).length ≤ m.length := by
          rw [hd, List.length_drop]; omega
        have h2 := listPre_trans_length (c :: d2) m X hlen hh
        rw [hd] at h2
        rw [hb j hjlt hj] at h2
        exact absurd h2 Bool.false_ne_true
    simp only [List.cons_append, countOcc, List.append_eq, hcond, if_false]
    simpa using ih (j + 1) (by omega) hd2

theorem countOcc_self_append {m : List Char} (hm : m ≠ [])
    (hb : ∀ j, j < m.length → 0 < j → listPre (m.drop j) m = false) (X : List Char) :
    countOcc m (m ++ X) = 1 + countOcc m X := by
  obtain ⟨c, m', rfl⟩ : ∃ c m', m = c :: m' := by
    cases m with
    | nil => exact absurd rfl hm
    | cons c m' => exact ⟨c, m', rfl⟩
  have h1 : listPre (c :: m') (c :: (m' ++ X)) = true := by
    have := listPre_self_append (c :: m') X
    simpa using this
  simp only [List.cons_append, countOcc, List.append_eq, h1, if_true]
  rw [countOcc_drop_append hb X m' 1 (by omega) (by simp)]

/-! ## Lemmas about the test-filename computation -/

theorem jsExtAt_none {x : List Char} (h1 : listPre ['.', 'j', 's'] x = false)
    (h2 : listPre ['.', 't', 's'] x = false) : jsExtAt x = none := by
  simp [jsExtAt, h1, h2]

theorem extPre_append {p : List Char}
    (hp : p = ['.', 'j', 's'] ∨ p = ['.', 't', 's'])
    (x y : List Char) (hx : x ≠ []) (hy : ∃ y2, y = '.' :: y2)
    (h : listPre p x = false) : listPre p (x ++ y) = false := by
  obtain ⟨y2, rfl⟩ := hy
  rcases hp with rfl | rfl <;>
    (cases x with
     | nil => exact absurd rfl hx
     | cons a x1 =>
       cases x1 with
       | nil =>
         simp [listPre, (by decide : ('j' == '.') = false),
           (by decide : ('t' == '.') = false)]
       | cons b x2 =>
         cases x2 with
         | nil => simp [listPre, (by decide : ('s' == '.') = false)]
         | cons c2 x3 => simpa [listPre] using h)

theorem insertTestMarker_cons_none {c : Char} {t : List Char}
    (h : jsExtAt (c :: t) = none) :
    insertTestMarker (c :: t) = c :: insertTestMarker t := by
  simp [insertTestMarker, h]

theorem insertTestMarker_id :
    ∀ l, listSub ['.', 'j', 's'] l = false → listSub ['.', 't', 's'] l = false →
      insertTestMarker l = l := by
  intro l
  induction l with
  | nil => intro _ _; simp [insertTestMarker]
  | cons c t ih =>
    intro h1 h2
    simp only [listSub, Bool.or_eq_false_iff] at h1 h2
    have hx : jsExtAt (c :: t) = none := jsExtAt_none h1.1 h2.1
    simp [insertTestMarker, hx, ih h1.2 h2.2]

theorem insertTestMarker_stem_ext :
    ∀ (stem ext : List Char),
      (ext = ".js".data ∨ ext = ".ts".data ∨ ext = ".jsx".data ∨ ext = ".tsx".data) →
      listSub ['.', 'j', 's'] stem = false → listSub ['.', 't', 's'] stem = false →
      insertTestMarker (stem ++ ext) = stem ++ ".test".data ++ ext := by
  intro stem
  induction stem with
  | nil =>
    intro ext hext _ _
    rcases hext with rfl | rfl | rfl | rfl <;> decide
  | cons c t ih =>
    intro ext hext h1 h2
    simp only [listSub, Bool.or_eq_false_iff] at h1 h2
    have hy : ∃ y2, ext = '.' :: y2 := by
      rcases hext with rfl | rfl | rfl | rfl <;> exact ⟨_, rfl⟩
    have hA : listPre ['.', 'j', 's'] ((c :: t) ++ ext) = false :=
      extPre_append (Or.inl rfl) (c :: t) ext (by simp) hy h1.1
    have hB : listPre ['.', 't', 's'] ((c :: t) ++ ext) = false :=
      extPre_append (Or.inr rfl) (c :: t) ext (by simp) hy h2.1
    have hnone2 : jsExtAt (c :: (t ++ ext)) = none := by
      have := jsExtAt_none hA hB
      simpa using this
    rw [List.cons_append, insertTestMarker_cons_none hnone2, ih ext hext h1.2 h2.2]
    simp

/-! ## Lemmas about the flow-analysis context blob -/

theorem strData_append (a b : String) : (a ++ b).data = a.data ++ b.data := rfl

theorem buildFlowContextAux_ok (read : String → Except String String) (r : String)
    (ct : String → String) :
    ∀ (files : List String) (acc : String), (∀ p ∈ files, read p = .ok (ct p)) →
      buildFlowContextAux read r acc files
        = .ok (acc ++ strJoin (files.map fun p => flowSeg (pathRelative r p) (ct p))) := by
  intro files
  induction files with
  | nil =>
    intro acc _
    simp [buildFlowContextAux, strJoin]
  | cons p ps ih =>
    intro acc h
    have hp := h p (List.mem_cons_self p ps)
    simp only [buildFlowContextAux, hp]
    rw [ih _ (fun q hq => h q (List.mem_cons_of_mem _ hq))]
    simp [strJoin, String.append_assoc]

theorem flowSeg_count (rel c : String) (rest : List Char)
    (h1 : strContains (rel ++ " ###\n\n```\n") fileMarker = false)
    (h2 : strContains (c ++ "\n```") fileMarker = false) :
    countOcc fileMarker.data ((flowSeg rel c).data ++ rest)
      = 1 + countOcc fileMarker.data rest := by
  have hmne : fileMarker.data ≠ [] := by decide
  have hnl : '\n' ∉ fileMarker.data := by decide
  have hbq : '\x60' ∉ fileMarker.data := by decide
  have hborder : ∀ j, j < fileMarker.data.length → 0 < j →
      listPre (fileMarker.data.drop j) fileMarker.data = false := by decide
  have hE : (flowSeg rel c).data ++ rest
      = (['\n'] ++ ['\n']) ++
        (fileMarker.data ++
          (((rel.data ++ " ###\n\n```".data) ++ ['\n']) ++
            (((c.data ++ "\n``".data) ++ ['\x60']) ++ rest))) := by
    simp [flowSeg, fileMarker, strData_append, List.append_assoc]
  rw [hE]
  rw [countOcc_split hmne hnl ['\n'] _]
  rw [countOcc_self_append hmne hborder _]
  rw [countOcc_split hmne hnl (rel.data ++ " ###\n\n```".data) _]
  rw [countOcc_split hmne hbq (c.data ++ "\n``".data) rest]
  have z1 : countOcc fileMarker.data (['\n'] ++ ['\n']) = 0 := by decide
  have r1 : (rel.data ++ " ###\n\n```".data) ++ ['\n']
      = (rel ++ " ###\n\n```\n").data := by
    simp [strData_append, List.append_assoc]
  have r2 : (c.data ++ "\n``".data) ++ ['\x60'] = (c ++ "\n```").data := by
    simp [strData_append, List.append_assoc]
  simp only [strContains] at h1 h2
  rw [z1, r1, r2, countOcc_of_not_listSub _ h1, countOcc_of_not_listSub _ h2]
  omega

theorem flowBlob_count (r : String) (ct : String → String) :
    ∀ files : List String,
      (∀ p ∈ files,
        strContains (pathRelative r p ++ " ###\n\n```\n") fileMarker = false ∧
        strContains (ct p ++ "\n```") fileMarker = false) →
      countOcc fileMarker.data
        (strJoin (files.map fun p => flowSeg (pathRelative r p) (ct p))).data
        = files.length := by
  intro files
  induction files with
  | nil => intro _; simp [strJoin, countOcc]
  | cons p ps ih =>
    intro h
    have hp := h p (List.mem_cons_self p ps)
    have hJ : (strJoin ((p :: ps).map fun q => flowSeg (pathRelative r q) (ct q))).data
        = (flowSeg (pathRelative r p) (ct p)).data ++
          (strJoin (ps.map fun q => flowSeg (pathRelative r q) (ct q))).data := by
      simp [strJoin, strData_append]
    rw [hJ, flowSeg_count _ _ _ hp.1 hp.2,
      ih (fun q hq => h q (List.mem_cons_of_mem _ hq))]
    simp [Nat.add_comm]

/-! ## String-level helper lemmas -/

theorem strMk_data (s : String) : String.mk s.data = s := rfl

theorem strAppend_assoc (a b c : String) : (a ++ b) ++ c = a ++ (b ++ c) :=
  congrArg String.mk (List.append_assoc a.data b.data c.data)

theorem strEmpty_append (s : String) : "" ++ s = s := rfl

theorem strAppend_empty (s : String) : s ++ "" = s :=
  congrArg String.mk (List.append_nil s.data)

theorem strLength_append (a b : String) : (a ++ b).length = a.length + b.length := by
  show (a.data ++ b.data).length = a.data.length + b.data.length
  exact List.length_append a.data b.data

theorem pathJoin_ne_empty (a b : String) : pathJoin a b ≠ "" := by
  unfold pathJoin
  by_cases ha : a = ""
  · by_cases hb : b = ""
    · rw [if_pos ha, if_pos hb]
      decide
    · rw [if_pos ha, if_neg hb]
      exact hb
  · by_cases hb : b = ""
    · rw [if_neg ha, if_pos hb]
      exact ha
    · rw [if_neg ha, if_neg hb]
      intro h
      have hlen := congrArg String.length h
      rw [strLength_append, strLength_append] at hlen
      have h1 : ("/" : String).length = 1 := by decide
      have h0 : ("" : String).length = 0 := rfl
      rw [h1, h0] at hlen
      omega

theorem strContains_mid (A v B : String) : strContains (A ++ v ++ B) v = true := by
  unfold strContains
  have hd : (A ++ v ++ B).data = A.data ++ (v.data ++ B.data) := by
    simp [strData_append, List.append_assoc]
  rw [hd]
  exact listSub_mid v.data A.data B.data

theorem strContains_append_right (A B : String) : strContains (A ++ B) B = true := by
  unfold strContains
  have := listSub_mid B.data A.data []
  simpa using this

/-! ## The claims -/

/-- C7: for every raw command line whose first token is not a recognized
    verb, the Router emits exactly one DisplayMessage containing the
    (lower-cased) unrecognized verb and a hint to use /help, and dispatches
    to no pipeline. -/
theorem router_unrecognized_verb (text : String)
    (h : routerVerb text ∉ recognizedVerbs) :
    handleUserCommand text = [RouterAction.display (unrecognizedMsg (routerVerb text))] ∧
    strContains (unrecognizedMsg (routerVerb text)) (routerVerb text) = true ∧
    strContains (unrecognizedMsg (routerVerb text)) "/help" = true := by
  simp only [recognizedVerbs, List.mem_cons, List.mem_singleton, not_or] at h
  obtain ⟨h1, h2, h3, h4, h5, h6, h7, h8, h9⟩ := h
  refine ⟨?_, ?_, ?_⟩
  · simp [handleUserCommand, h1, h2, h3, h4, h5, h6, h7, h8, h9]
  · exact strContains_mid "[DevForge] Unrecognized command: " (routerVerb text)
      ". Type **/help** for a list of commands."
  · unfold unrecognizedMsg strContains
    have hd : (("[DevForge] Unrecognized command: " ++ routerVerb text) ++
        ". Type **/help** for a list of commands.").data
        = ("[DevForge] Unrecognized command: " ++ routerVerb text).data ++
          ". Type **/help** for a list of commands.".data := rfl
    rw [hd]
    apply listSub_append_right
    decide

/-- Witness for C7 at the concrete input "/frobnicate now". -/
theorem router_unrecognized_verb_witness :
    handleUserCommand "/frobnicate now" =
      [RouterAction.display (unrecognizedMsg "/frobnicate")] ∧
    strContains (unrecognizedMsg "/frobnicate") "/frobnicate" = true ∧
    strContains (unrecognizedMsg "/frobnicate") "/help" = true := by
  have hv : routerVerb "/frobnicate now" = "/frobnicate" := by decide
  have := router_unrecognized_verb "/frobnicate now" (by decide)
  rwa [hv] at this

/-- C10: an input line that is empty or all-whitespace takes the
    unrecognized-verb branch (the verb parses to the empty string), emitting
    exactly one DisplayMessage and starting no pipeline. -/
theorem router_blank_input (text : String) (h : listTrim text.data = []) :
    handleUserCommand text = [RouterAction.display (unrecognizedMsg "")] ∧
    routerVerb text = "" := by
  have hv : routerVerb text = "" := by
    simp [routerVerb, jsTokens, h]
  refine ⟨?_, hv⟩
  simp [handleUserCommand, hv]

/-- Witness for C10 at the concrete input "". -/
theorem router_blank_input_witness :
    handleUserCommand "" = [RouterAction.display (unrecognizedMsg "")] ∧
    routerVerb "" = "" :=
  router_blank_input "" (by decide)

/-- C5: flow analysis with zero matching files emits the no-relevant-files
    DisplayMessage and posts nothing to the remote endpoint. -/
theorem flow_no_matches_no_remote (fe : FlowEnv) (r : String)
    (hroot : fe.root = some r) (hempty : fe.found = []) :
    (runFlow fe).messages = [flowNoFilesMsg] ∧ (runFlow fe).payloads = [] := by
  simp [runFlow, hroot, hempty]

/-- Witness for C5 at the concrete environment `feEmpty`. -/
theorem flow_no_matches_no_remote_witness :
    (runFlow feEmpty).messages = [flowNoFilesMsg] ∧ (runFlow feEmpty).payloads = [] :=
  flow_no_matches_no_remote feEmpty "/w" rfl rfl

/-- C8: the log-tail action runs `tail -n 10 <file>` with cwd = project
    root; on an exec error or non-empty stderr it emits one failure
    DisplayMessage containing the filename and the captured error text,
    otherwise one DisplayMessage with stdout in a fenced block labeled with
    the filename; the router defaults the /logs argument to server.log. -/
theorem logs_pipeline_behavior (le : LogsEnv) (r : String)
    (hroot : le.root = some r) :
    (runLogs le).execs = [("tail -n 10 " ++ le.fileName, r)] ∧
    (runLogs le).uncaught = none ∧
    ((le.exec.err.isSome = true ∨ le.exec.stderr ≠ "") →
      (runLogs le).messages =
        [logsErrMsg le.fileName (jsOr (le.exec.err.getD "") le.exec.stderr)] ∧
      strContains
        (logsErrMsg le.fileName (jsOr (le.exec.err.getD "") le.exec.stderr))
        le.fileName = true ∧
      strContains
        (logsErrMsg le.fileName (jsOr (le.exec.err.getD "") le.exec.stderr))
        (jsOr (le.exec.err.getD "") le.exec.stderr) = true) ∧
    (le.exec.err = none → le.exec.stderr = "" →
      (runLogs le).messages = [logsOkMsg le.fileName le.exec.stdout]) ∧
    handleUserCommand "/logs" = [RouterAction.dispatch "devforge.runLogs" "server.log"] := by
  have hcontains1 :
      strContains
        (logsErrMsg le.fileName (jsOr (le.exec.err.getD "") le.exec.stderr))
        le.fileName = true := by
    unfold logsErrMsg
    rw [strAppend_assoc]
    exact strContains_mid "[ERROR] Could not read log file '" le.fileName _
  have hcontains2 :
      strContains
        (logsErrMsg le.fileName (jsOr (le.exec.err.getD "") le.exec.stderr))
        (jsOr (le.exec.err.getD "") le.exec.stderr) = true := by
    unfold logsErrMsg
    exact strContains_append_right _ _
  refine ⟨?_, ?_, ?_, ?_, ?_⟩
  · by_cases hc : le.exec.err.isSome = true ∨ le.exec.stderr ≠ ""
    · have : (le.exec.err.isSome || le.exec.stderr != "") = true := by
        rcases hc with h | h <;> simp [h]
      simp [runLogs, hroot, this]
    · push_neg at hc
      have : (le.exec.err.isSome || le.exec.stderr != "") = false := by
        simp [hc.1, hc.2]
      simp [runLogs, hroot, this]
  · by_cases hc : (le.exec.err.isSome || le.exec.stderr != "") = true
    · simp [runLogs, hroot, hc]
    · simp only [Bool.not_eq_true] at hc
      simp [runLogs, hroot, hc]
  · intro hc
    have hb : (le.exec.err.isSome || le.exec.stderr != "") = true := by
      rcases hc with h | h <;> simp [h]
    exact ⟨by simp [runLogs, hroot, hb], hcontains1, hcontains2⟩
  · intro h1 h2
    have hb : (le.exec.err.isSome || le.exec.stderr != "") = false := by
      simp [h1, h2]
    simp [runLogs, hroot, hb]
  · decide

/-- Witness for C8 at the concrete environment `leW`. -/
theorem logs_pipeline_behavior_witness :
    (runLogs leW).execs = [("tail -n 10 " ++ leW.fileName, "/w")] ∧
    (runLogs leW).messages = [logsOkMsg "server.log" "line1\nline2"] := by
  have h := logs_pipeline_behavior leW "/w" rfl
  exact ⟨h.1, by simpa using h.2.2.2.1 rfl rfl⟩

/-- C2: when the generation response's summary is absent or contains the
    substring "failed", the generate-and-verify pipeline emits one terminal
    generation-failure DisplayMessage including the returned text, and ends
    with no mkdir, no file write, and no test run. -/
theorem generation_failure_terminates (te : TestsEnv) (cnt : String) (s : Option String)
    (hex : te.fsExists (testsTarget te) = true)
    (hread : te.readResult = Except.ok cnt)
    (hpost : te.postSummary = Except.ok s)
    (hfail : s = none ∨ strContains (s.getD "") "failed" = true) :
    (runTests te).messages = [genFailMsg s] ∧
    strContains (genFailMsg s) (jsUndef s) = true ∧
    (runTests te).remoteCalls = 1 ∧
    (runTests te).writes = [] ∧ (runTests te).mkdirs = [] ∧
    (runTests te).execs = [] ∧ (runTests te).uncaught = none := by
  have htne : testsTarget te ≠ "" := pathJoin_ne_empty _ _
  have hrej : genRejected s = true := by
    rcases hfail with rfl | hf
    · rfl
    · cases s with
      | none => rfl
      | some t =>
        simp only [Option.getD_some] at hf
        simp [genRejected, hf]
  have hres : runTests te = ⟨[genFailMsg s], 1, [], [], [], none⟩ := by
    simp [runTests, htne, hex, hread, hpost, hrej]
  refine ⟨by rw [hres], ?_, by rw [hres], by rw [hres], by rw [hres],
    by rw [hres], by rw [hres]⟩
  exact strContains_append_right "**AI Test Generation Failed.** Output:\n\n" (jsUndef s)

/-- Witness for C2 at the concrete environment `teGenFail`. -/
theorem generation_failure_terminates_witness :
    (runTests teGenFail).messages = [genFailMsg (some "generation failed")] ∧
    strContains (genFailMsg (some "generation failed"))
      (jsUndef (some "generation failed")) = true ∧
    (runTests teGenFail).remoteCalls = 1 ∧
    (runTests teGenFail).writes = [] ∧ (runTests teGenFail).mkdirs = [] ∧
    (runTests teGenFail).execs = [] ∧ (runTests teGenFail).uncaught = none :=
  generation_failure_terminates teGenFail "let x = 1" (some "generation failed")
    (by decide) rfl rfl (Or.inr (by decide))

/-- Common persistence behaviour of runTests once generation succeeded:
    the generated code is written (attempted write call recorded) to
    `tests/<insertTestStr basename>` under the root, the `tests/` directory
    is created exactly when the root is present and it does not exist, and
    nothing escapes.  The write happens whether or not a file already exists
    at the destination (`te.fsExists` at the destination is unconstrained):
    the overwrite is unconditional. -/
theorem runTests_writes (te : TestsEnv) (cnt g : String)
    (hex : te.fsExists (testsTarget te) = true)
    (hread : te.readResult = Except.ok cnt)
    (hpost : te.postSummary = Except.ok (some g))
    (hg1 : g ≠ "") (hg2 : strContains g "failed" = false)
    (hmk : te.mkdirResult = Except.ok ())
    (hwr : te.writeResult = Except.ok ()) :
    (runTests te).writes =
      [(pathJoin (pathJoin (te.root.getD "") "tests")
        (insertTestStr (basename (testsTarget te))), g)] ∧
    (runTests te).uncaught = none ∧
    (runTests te).mkdirs =
      (match te.root with
       | some r => if te.fsExists (pathJoin r "tests") then [] else [pathJoin r "tests"]
       | none => []) := by
  have htne : testsTarget te ≠ "" := pathJoin_ne_empty _ _
  have hrej : genRejected (some g) = false := by
    simp [genRejected, hg1, hg2]
  cases hr : te.root with
  | none =>
    simp [runTests, htne, hex, hread, hpost, hrej, hr, testsPersistExec, hwr]
  | some r =>
    by_cases hts : te.fsExists (pathJoin r "tests")
    · simp [runTests, htne, hex, hread, hpost, hrej, hr, hts, testsPersistExec, hwr]
    · simp [runTests, htne, hex, hread, hpost, hrej, hr, hts, testsPersistExec, hwr, hmk]

/-- C3 (amended): for a source basename of the shape `stem ++ ext` with
    `ext` one of .js/.ts/.jsx/.tsx and no earlier `.js`/`.ts` occurrence in
    `stem` (so the regex's FIRST match is at the final extension), the
    destination filename is `stem ++ ".test" ++ ext`, written under the
    project root's tests/ directory (created when absent), overwriting
    unconditionally (no hypothesis constrains the destination's existence). -/
theorem tests_destination_spec_conformant (te : TestsEnv) (cnt g stem ext : String)
    (hex : te.fsExists (testsTarget te) = true)
    (hread : te.readResult = Except.ok cnt)
    (hpost : te.postSummary = Except.ok (some g))
    (hg1 : g ≠ "") (hg2 : strContains g "failed" = false)
    (hmk : te.mkdirResult = Except.ok ())
    (hwr : te.writeResult = Except.ok ())
    (hb : basename (testsTarget te) = stem ++ ext)
    (hext : ext = ".js" ∨ ext = ".ts" ∨ ext = ".jsx" ∨ ext = ".tsx")
    (hstem1 : strContains stem ".js" = false)
    (hstem2 : strContains stem ".ts" = false) :
    (runTests te).writes =
      [(pathJoin (pathJoin (te.root.getD "") "tests") (stem ++ ".test" ++ ext), g)] ∧
    (runTests te).uncaught = none ∧
    (runTests te).mkdirs =
      (match te.root with
       | some r => if te.fsExists (pathJoin r "tests") then [] else [pathJoin r "tests"]
       | none => []) := by
  have h := runTests_writes te cnt g hex hread hpost hg1 hg2 hmk hwr
  have hfn : insertTestStr (basename (testsTarget te)) = stem ++ ".test" ++ ext := by
    rw [hb]
    have h1 : listSub ['.', 'j', 's'] stem.data = false := by
      simpa [strContains] using hstem1
    have h2 : listSub ['.', 't', 's'] stem.data = false := by
      simpa [strContains] using hstem2
    have hextlist : ext.data = ".js".data ∨ ext.data = ".ts".data ∨
        ext.data = ".jsx".data ∨ ext.data = ".tsx".data := by
      rcases hext with rfl | rfl | rfl | rfl <;> simp
    have hmain := insertTestMarker_stem_ext stem.data ext.data hextlist h1 h2
    show String.mk (insertTestMarker ((stem ++ ext).data)) = stem ++ ".test" ++ ext
    have hdata : (stem ++ ext).data = stem.data ++ ext.data := rfl
    rw [hdata, hmain]
    rfl
  rw [hfn] at h
  exact h

/-- Witness for C3's amended theorem at `teFoo` (`foo.js` ↦ `foo.test.js`). -/
theorem tests_destination_spec_conformant_witness :
    (runTests teFoo).writes = [("/w/tests/foo.test.js", "describe(add)")] ∧
    (runTests teFoo).uncaught = none := by
  have h := tests_destination_spec_conformant teFoo "let x = 1" "describe(add)" "foo" ".js"
    (by decide) rfl rfl (by decide) (by decide) rfl rfl (by decide)
    (Or.inl rfl) (by decide) (by decide)
  refine ⟨?_, h.2.1⟩
  rw [h.1]
  decide

/-- Counterexample for C3 as stated: the source basename `a.ts.js` ends in
    `.js`, but the replace of line 141 rewrites the FIRST occurrence `.ts`,
    so the file is written as `tests/a.test.ts.js`, not `tests/a.ts.test.js`
    (the name insertion-before-the-extension would give). -/
theorem tests_destination_first_occurrence_cex :
    (runTests teFirstOcc).writes = [("/w/tests/a.test.ts.js", "describe(add)")] ∧
    ("a.test.ts.js" : String) ≠ "a.ts.test.js" := by
  constructor
  · decide
  · decide

/-- C9: when the target basename contains none of .js/.ts/.jsx/.tsx, the
    regex does not match, the destination filename is the basename
    unchanged, and the generated code is still written under tests/ at that
    unchanged name. -/
theorem tests_destination_unchanged_basename (te : TestsEnv) (cnt g : String)
    (hex : te.fsExists (testsTarget te) = true)
    (hread : te.readResult = Except.ok cnt)
    (hpost : te.postSummary = Except.ok (some g))
    (hg1 : g ≠ "") (hg2 : strContains g "failed" = false)
    (hmk : te.mkdirResult = Except.ok ())
    (hwr : te.writeResult = Except.ok ())
    (h1 : strContains (basename (testsTarget te)) ".js" = false)
    (h2 : strContains (basename (testsTarget te)) ".ts" = false)
    (_h3 : strContains (basename (testsTarget te)) ".jsx" = false)
    (_h4 : strContains (basename (testsTarget te)) ".tsx" = false) :
    (runTests te).writes =
      [(pathJoin (pathJoin (te.root.getD "") "tests") (basename (testsTarget te)), g)] ∧
    (runTests te).uncaught = none := by
  have h := runTests_writes te cnt g hex hread hpost hg1 hg2 hmk hwr
  have hfn : insertTestStr (basename (testsTarget te)) = basename (testsTarget te) := by
    show String.mk (insertTestMarker (basename (testsTarget te)).data)
        = basename (testsTarget te)
    rw [insertTestMarker_id _ (by simpa [strContains] using h1)
      (by simpa [strContains] using h2)]
  rw [hfn] at h
  exact ⟨h.1, h.2.1⟩

/-- Witness for C9 at `teNoExt` (`README.md` kept unchanged under tests/). -/
theorem tests_destination_unchanged_basename_witness :
    (runTests teNoExt).writes = [("/w/tests/README.md", "describe(add)")] ∧
    (runTests teNoExt).uncaught = none := by
  have h := tests_destination_unchanged_basename teNoExt "let x = 1" "describe(add)"
    (by decide) rfl rfl (by decide) (by decide) rfl rfl
    (by decide) (by decide) (by decide) (by decide)
  refine ⟨?_, h.2⟩
  rw [h.1]
  decide

/-- C4 (amended): the summarize pipeline follows the two-step policy
    (explicit argument joined to the project root, else the active editor
    file as-is) and short-circuits to the file-not-found DisplayMessage
    with zero remote calls when the resolved target does not exist.  In the
    generate-and-verify pipeline, however, even the active-file fallback is
    joined against the project root (line 117), and a non-existent joined
    target likewise yields the not-found message with zero remote calls. -/
theorem target_resolution_policy (se : SummaryEnv) (te : TestsEnv) :
    (se.arg ≠ "" → summaryTarget se = se.root.map fun r => pathJoin r se.arg) ∧
    (se.arg = "" → summaryTarget se = se.activeFile) ∧
    ((summaryTarget se).all (fun t => !se.fsExists t) = true →
      (runSummary se).messages = [summaryNotFoundMsg se.arg] ∧
      (runSummary se).remoteCalls = 0) ∧
    (∀ r f, te.root = some r → te.arg = "" → te.activeFileName = some f →
      testsTarget te = pathJoin r f) ∧
    (te.fsExists (testsTarget te) = false →
      (runTests te).messages = [testsNotFoundMsg te.arg] ∧
      (runTests te).remoteCalls = 0) := by
  refine ⟨?_, ?_, ?_, ?_, ?_⟩
  · intro h
    cases hr : se.root <;> simp [summaryTarget, h, hr]
  · intro h
    simp [summaryTarget, h]
  · intro hall
    cases hst : summaryTarget se with
    | none => simp [runSummary, hst]
    | some t =>
      have hfs : se.fsExists t = false := by
        rw [hst] at hall
        simpa using hall
      simp [runSummary, hst, hfs]
  · intro r f h1 h2 h3
    simp [testsTarget, h1, h2, h3, jsOr]
  · intro h
    constructor <;> simp [runTests, h]

/-- Witness for C4's amended theorem at `seW` (missing explicit path). -/
theorem target_resolution_policy_witness :
    (runSummary seW).messages = [summaryNotFoundMsg "missing.js"] ∧
    (runSummary seW).remoteCalls = 0 ∧
    summaryTarget seW = some "/w/missing.js" := by
  have h := target_resolution_policy seW teRemoteFail
  have hnf := h.2.2.1 (by decide)
  refine ⟨by simpa using hnf.1, hnf.2, ?_⟩
  have h1 := h.1 (by decide)
  rw [h1]
  decide

/-- Counterexample for C4 as stated: in `teActive` there is no explicit
    argument and the active editor's file `/home/u/app.js` exists, yet the
    generate-and-verify pipeline joins that absolute path to the root `/w`,
    resolves `/w/home/u/app.js`, and emits file-not-found with zero remote
    calls instead of using the active file. -/
theorem tests_active_file_resolution_cex :
    teActive.arg = "" ∧
    teActive.activeFileName = some "/home/u/app.js" ∧
    teActive.fsExists "/home/u/app.js" = true ∧
    testsTarget teActive = "/w/home/u/app.js" ∧
    (runTests teActive).messages = [testsNotFoundMsg ""] ∧
    (runTests teActive).remoteCalls = 0 := by
  decide

/-- C1 (amended): the summarize, flow-analysis, log-tail and
    environment-bring-up pipelines each emit exactly one DisplayMessage on
    every path, with nothing escaping their handlers; the generate-and-
    verify pipeline emits between one and two DisplayMessages with nothing
    escaping PROVIDED its unguarded file read and webhook call succeed
    (when either fails, the error escapes; see the counterexample). -/
theorem pipeline_message_discipline (se : SummaryEnv) (fe : FlowEnv) (le : LogsEnv)
    (nm : String) (te : TestsEnv) (cnt : String) (s : Option String)
    (hread : te.readResult = Except.ok cnt)
    (hpost : te.postSummary = Except.ok s) :
    ((runSummary se).messages.length = 1 ∧ (runSummary se).uncaught = none) ∧
    ((runFlow fe).messages.length = 1 ∧ (runFlow fe).uncaught = none) ∧
    ((runLogs le).messages.length = 1 ∧ (runLogs le).uncaught = none) ∧
    ((runEnv nm).messages.length = 1 ∧ (runEnv nm).uncaught = none) ∧
    (1 ≤ (runTests te).messages.length ∧ (runTests te).messages.length ≤ 2 ∧
      (runTests te).uncaught = none) := by
  refine ⟨?_, ?_, ?_, ?_, ?_⟩
  · unfold runSummary
    cases hst : summaryTarget se with
    | none => simp
    | some t =>
      by_cases hfs : se.fsExists t = true
      · cases hr2 : se.readResult with
        | error e1 => simp [hfs, hr2]
        | ok c2 =>
          cases hp2 : se.postSummary with
          | error e2 => simp [hfs, hr2, hp2]
          | ok s2 => simp [hfs, hr2, hp2]
      · simp [hfs]
  · unfold runFlow
    cases hr : fe.root with
    | none => simp
    | some r =>
      by_cases h0 : (List.take MAX_CONTEXT_FILES fe.found).length = 0
      · simp [h0]
      · cases hb : buildFlowContextAux fe.read r "" (List.take MAX_CONTEXT_FILES fe.found) with
        | error e1 =>
          simp only [hb]
          split <;> simp
        | ok ctx =>
          cases hp2 : fe.postSummary with
          | error e2 =>
            simp only [hb, hp2]
            split <;> simp
          | ok s2 =>
            simp only [hb, hp2]
            split <;> simp
  · unfold runLogs
    cases hr : le.root with
    | none => simp
    | some r =>
      by_cases hc : (le.exec.err.isSome || le.exec.stderr != "") = true
      · simp [hc]
      · simp [hc]
  · simp [runEnv]
  · by_cases hnf : (decide (testsTarget te = "") || !te.fsExists (testsTarget te)) = true
    · simp [runTests, hnf]
    · have hnf2 : (decide (testsTarget te = "") || !te.fsExists (testsTarget te)) = false := by
        simpa using hnf
      by_cases hrej : genRejected s = true
      · simp [runTests, hnf2, hread, hpost, hrej]
      · have hrej2 : genRejected s = false := by simpa using hrej
        cases hr : te.root with
        | none =>
          cases hw : te.writeResult with
          | error e => simp [runTests, testsPersistExec, hnf2, hread, hpost, hrej2, hr, hw]
          | ok u => simp [runTests, testsPersistExec, hnf2, hread, hpost, hrej2, hr, hw]
        | some r =>
          by_cases hts : te.fsExists (pathJoin r "tests") = true
          · cases hw : te.writeResult with
            | error e => simp [runTests, testsPersistExec, hnf2, hread, hpost, hrej2, hr, hts, hw]
            | ok u => simp [runTests, testsPersistExec, hnf2, hread, hpost, hrej2, hr, hts, hw]
          · cases hm : te.mkdirResult with
            | error e => simp [runTests, testsPersistExec, hnf2, hread, hpost, hrej2, hr, hts, hm]
            | ok u =>
              cases hw : te.writeResult with
              | error e =>
                simp [runTests, testsPersistExec, hnf2, hread, hpost, hrej2, hr, hts, hm, hw]
              | ok u2 =>
                simp [runTests, testsPersistExec, hnf2, hread, hpost, hrej2, hr, hts, hm, hw]

/-- Witness for C1's amended theorem at concrete environments for all five
    pipelines, with the generate-and-verify read and remote call succeeding. -/
theorem pipeline_message_discipline_witness :
    ((runSummary seW).messages.length = 1 ∧ (runSummary seW).uncaught = none) ∧
    ((runFlow feW).messages.length = 1 ∧ (runFlow feW).uncaught = none) ∧
    ((runLogs leW).messages.length = 1 ∧ (runLogs leW).uncaught = none) ∧
    ((runEnv "node-18").messages.length = 1 ∧ (runEnv "node-18").uncaught = none) ∧
    (1 ≤ (runTests teOk).messages.length ∧ (runTests teOk).messages.length ≤ 2 ∧
      (runTests teOk).uncaught = none) :=
  pipeline_message_discipline seW feW leW "node-18" teOk "let x = 1"
    (some "describe(add)") rfl rfl

/-- Counterexample for C1 as stated: in `teRemoteFail` the generate-and-
    verify pipeline's webhook call is rejected outside any try/catch
    (lines 128-132), so ZERO DisplayMessages are posted and the rejection
    escapes the handler unhandled. -/
theorem tests_remote_failure_escapes :
    (runTests teRemoteFail).messages = [] ∧
    (runTests teRemoteFail).uncaught = some "Network Error" := by
  decide

/-- C6: with a workspace root and N (1 ≤ N ≤ 8, capped by the findFiles
    maxResults argument) readable matching files, the context blob sent to
    the remote endpoint is exactly the concatenation, in discovery order, of
    one section per file: a header naming the file's path relative to the
    project root followed by its raw content inside a fenced block; and,
    provided no relative path or content smuggles in the header marker
    itself, the blob contains exactly N file-delimiter headers. -/
theorem flow_context_blob_structure (fe : FlowEnv) (r : String) (ct : String → String)
    (hroot : fe.root = some r)
    (hread : ∀ p ∈ fe.found.take MAX_CONTEXT_FILES, fe.read p = Except.ok (ct p))
    (hne : fe.found ≠ []) :
    (fe.found.take MAX_CONTEXT_FILES).length ≤ MAX_CONTEXT_FILES ∧
    (runFlow fe).payloads.map FlowPayload.project_context =
      [strJoin ((fe.found.take MAX_CONTEXT_FILES).map
        fun p => flowSeg (pathRelative r p) (ct p))] ∧
    ((∀ p ∈ fe.found.take MAX_CONTEXT_FILES,
        strContains (pathRelative r p ++ " ###\n\n```\n") fileMarker = false ∧
        strContains (ct p ++ "\n```") fileMarker = false) →
      countOcc fileMarker.data
        (strJoin ((fe.found.take MAX_CONTEXT_FILES).map
          fun p => flowSeg (pathRelative r p) (ct p))).data
        = (fe.found.take MAX_CONTEXT_FILES).length) := by
  refine ⟨?_, ?_, fun hfree => flowBlob_count r ct _ hfree⟩
  · exact List.length_take_le MAX_CONTEXT_FILES fe.found
  · have h0 : ¬((fe.found.take MAX_CONTEXT_FILES).length = 0) := by
      cases hF : fe.found with
      | nil => exact absurd hF hne
      | cons a t => simp [hF, MAX_CONTEXT_FILES]
    have hM : (MAX_CONTEXT_FILES = 0 ∨ fe.found = []) ↔ False := by
      simp [MAX_CONTEXT_FILES, hne]
    have hb := buildFlowContextAux_ok fe.read r ct (fe.found.take MAX_CONTEXT_FILES) "" hread
    rw [strEmpty_append] at hb
    cases hp : fe.postSummary with
    | error e => simp [runFlow, hroot, h0, hb, hp, hM]
    | ok s2 => simp [runFlow, hroot, h0, hb, hp, hM]

/-- Witness for C6 at the concrete environment `feW` (two files). -/
theorem flow_context_blob_structure_witness :
    (feW.found.take MAX_CONTEXT_FILES).length ≤ MAX_CONTEXT_FILES ∧
    (runFlow feW).payloads.map FlowPayload.project_context =
      [strJoin ((feW.found.take MAX_CONTEXT_FILES).map
        fun p => flowSeg (pathRelative "/w" p) (feWContent p))] ∧
    countOcc fileMarker.data
      (strJoin ((feW.found.take MAX_CONTEXT_FILES).map
        fun p => flowSeg (pathRelative "/w" p) (feWContent p))).data
      = (feW.found.take MAX_CONTEXT_FILES).length := by
  have hlist : List.take MAX_CONTEXT_FILES feW.found
      = ["/w/package.json", "/w/src/index.js"] := by decide
  have h := flow_context_blob_structure feW "/w" feWContent rfl
    (by
      intro p hp
      rw [hlist] at hp
      simp only [List.mem_cons, List.mem_singleton, List.not_mem_nil, or_false] at hp
      rcases hp with rfl | rfl <;> rfl)
    (by decide)
  exact ⟨h.1, h.2.1, h.2.2 (by decide)⟩
